import Mathlib

/-!
Verification development for the survey-management application
(`src/Survey.py`): a shallow embedding of its persistence layer,
validation/submission logic, authoring logic, analytics aggregation and
CSV export, together with theorems settling the specification's claims.

The SQLite database is modelled as an explicit state (`DB`) holding the
four tables plus the AUTOINCREMENT counters; `datetime.now()` is threaded
through as an explicit `now : String` argument; Python's `str.strip()` is
modelled by `pyStrip`.
-/

/-- Whitespace characters removed by Python's `str.strip()` (ASCII subset:
space, tab, newline, carriage return, vertical tab, form feed). -/
def pyIsSpace (c : Char) : Bool :=
  c == ' ' || c == '\t' || c == '\n' || c == '\r' || c == '\x0b' || c == '\x0c'

/-- Model of Python's `s.strip()`: drop leading and trailing whitespace. -/
def pyStrip (s : String) : String :=
  ⟨((s.toList.dropWhile pyIsSpace).reverse.dropWhile pyIsSpace).reverse⟩

/-- Row of the `admins` table (`Survey.py` lines 19-24). -/
structure AdminRec where
  username : String
  password : String
deriving DecidableEq, Repr

/-- Row of the `surveys` table (`Survey.py` lines 27-34). -/
structure SurveyRec where
  id : Nat
  title : String
  description : String
  created_at : String
deriving DecidableEq, Repr

/-- Row of the `questions` table (`Survey.py` lines 37-46). -/
structure QuestionRec where
  id : Nat
  survey_id : Nat
  question_text : String
  qtype : String
  options : String
deriving DecidableEq, Repr

/-- Row of the `responses` table (`Survey.py` lines 49-60). -/
structure ResponseRec where
  id : Nat
  survey_id : Nat
  question_id : Nat
  respondent_name : String
  answer : String
  submitted_at : String
deriving DecidableEq, Repr

/-- The whole SQLite database file: the four tables in insertion order plus
the next value of each AUTOINCREMENT primary key. -/
structure DB where
  admins : List AdminRec
  surveys : List SurveyRec
  questions : List QuestionRec
  responses : List ResponseRec
  next_survey_id : Nat
  next_question_id : Nat
  next_response_id : Nat
deriving DecidableEq, Repr

/-- A database file that does not exist yet: empty tables, AUTOINCREMENT
counters at 1. -/
def emptyDB : DB := ⟨[], [], [], [], 1, 1, 1⟩

/-- Model of `init_db` (lines 14-68): table creation is idempotent (tables
are part of `DB` already); the default admin `("admin", "admin123")` is
inserted iff the `admins` table is empty. -/
def init_db (db : DB) : DB :=
  if db.admins.isEmpty then
    { db with admins := db.admins ++ [⟨"admin", "admin123"⟩] }
  else db

/-- Model of `fetch_surveys` (lines 70-74): `SELECT * FROM surveys ORDER BY
id DESC`. -/
def fetch_surveys (db : DB) : List SurveyRec :=
  db.surveys.mergeSort (fun a b => decide (b.id ≤ a.id))

/-- Model of `fetch_questions` (lines 76-84): `SELECT * FROM questions WHERE
survey_id=? ORDER BY id ASC`. -/
def fetch_questions (db : DB) (survey_id : Nat) : List QuestionRec :=
  (db.questions.filter (fun q => q.survey_id == survey_id)).mergeSort
    (fun a b => decide (a.id ≤ b.id))

/-- Model of `insert_survey` (lines 86-96): insert one row, return the
generated id (`cur.lastrowid`). -/
def insert_survey (db : DB) (title description created_at : String) :
    DB × Nat :=
  let sid := db.next_survey_id
  ({ db with
      surveys := db.surveys ++ [⟨sid, title, description, created_at⟩],
      next_survey_id := sid + 1 }, sid)

/-- Model of `insert_question` (lines 98-106). -/
def insert_question (db : DB) (survey_id : Nat)
    (question_text qtype options : String) : DB :=
  { db with
      questions := db.questions ++
        [⟨db.next_question_id, survey_id, question_text, qtype, options⟩],
      next_question_id := db.next_question_id + 1 }

/-- Model of `insert_response` (lines 108-117); `str(answer)` is the
identity here because answers are already modelled as strings. -/
def insert_response (db : DB) (survey_id question_id : Nat)
    (respondent_name answer submitted_at : String) : DB :=
  { db with
      responses := db.responses ++
        [⟨db.next_response_id, survey_id, question_id, respondent_name,
          answer, submitted_at⟩],
      next_response_id := db.next_response_id + 1 }

/-- Model of `admin_login` (lines 119-125): `SELECT * FROM admins WHERE
username=? AND password=?`, succeeding iff a row matches exactly. -/
def admin_login (db : DB) (username password : String) : Bool :=
  db.admins.any (fun a => a.username == username && a.password == password)

/-- One row of the frame returned by `fetch_responses`: the `responses` row
joined with the question's text and type. -/
structure JoinedRow where
  id : Nat
  respondent_name : String
  answer : String
  submitted_at : String
  question_text : String
  qtype : String
deriving DecidableEq, Repr

/-- Model of `fetch_responses` (lines 127-138): responses of the survey
joined with `questions` on `q.id = r.question_id` (the primary key, so
`find?` returns the unique matching row), ordered by `submitted_at DESC`. -/
def fetch_responses (db : DB) (survey_id : Nat) : List JoinedRow :=
  ((db.responses.filter (fun r => r.survey_id == survey_id)).filterMap
    (fun r =>
      (db.questions.find? (fun q => q.id == r.question_id)).map (fun q =>
        ⟨r.id, r.respondent_name, r.answer, r.submitted_at,
         q.question_text, q.qtype⟩))).mergeSort
    (fun a b => decide (b.submitted_at ≤ a.submitted_at))

/-- C6: on a freshly initialized store, admin login succeeds exactly for
`("admin", "admin123")`; in general the check is an exact string match of
both fields against the stored admin records. -/
theorem admin_login_fresh_store :
    (∀ u p, admin_login (init_db emptyDB) u p = true ↔
      (u = "admin" ∧ p = "admin123")) ∧
    (∀ db u p, admin_login db u p = true ↔
      ∃ a ∈ db.admins, a.username = u ∧ a.password = p) := by
  constructor
  · intro u p
    constructor
    · intro h
      simp [admin_login, init_db, emptyDB] at h
      exact ⟨h.1.symm, h.2.symm⟩
    · rintro ⟨rfl, rfl⟩
      decide
  · intro db u p
    simp [admin_login]

/-- Outcome reported by a handler: success, or one inline error message. -/
inductive Outcome where
  | ok
  | error (msg : String)
deriving DecidableEq, Repr

/-- Model of the survey-submission handler (lines 205-213): `answers` pairs
each question id with the (string-rendered) widget value; if any answer is
empty after stripping, a single error is shown and nothing is written;
otherwise `insert_response` runs once per answer with the stripped
respondent name. -/
def submitResponses (db : DB) (survey_id : Nat) (respondent : String)
    (answers : List (Nat × String)) (now : String) : DB × Outcome :=
  if answers.any (fun p => pyStrip p.2 == "") then
    (db, Outcome.error "Please answer all questions before submitting.")
  else
    (answers.foldl
      (fun d p => insert_response d survey_id p.1 (pyStrip respondent) p.2 now)
      db, Outcome.ok)

/-- Model of the Create Survey button handler (lines 260-268): reject an
empty (stripped) title without writing; otherwise insert the survey, then
insert each authored question whose stripped text is non-empty, with
stripped text and options. -/
def createSurvey (db : DB) (title desc : String)
    (question_data : List (String × String × String)) (now : String) :
    DB × Option Nat :=
  if pyStrip title == "" then (db, none)
  else
    let r := insert_survey db (pyStrip title) (pyStrip desc) now
    (question_data.foldl
      (fun d q =>
        if pyStrip q.1 != "" then
          insert_question d r.2 (pyStrip q.1) q.2.1 (pyStrip q.2.2)
        else d)
      r.1, some r.2)

/-- Closed form of the response rows written by a successful submission:
one row per answer, ids consecutive from `nid`, all rows sharing the
respondent name and timestamp. -/
def mkResponses (nid survey_id : Nat) (respondent now : String) :
    List (Nat × String) → List ResponseRec
  | [] => []
  | p :: rest =>
    ⟨nid, survey_id, p.1, respondent, p.2, now⟩ ::
      mkResponses (nid + 1) survey_id respondent now rest

/-- Closed form of the question rows written by survey creation: one row
per kept slot, ids consecutive from `nid`, text and options stripped. -/
def mkQuestions (nid survey_id : Nat) :
    List (String × String × String) → List QuestionRec
  | [] => []
  | q :: rest =>
    ⟨nid, survey_id, pyStrip q.1, q.2.1, pyStrip q.2.2⟩ ::
      mkQuestions (nid + 1) survey_id rest

lemma foldl_insert_response (survey_id : Nat) (respondent now : String) :
    ∀ (answers : List (Nat × String)) (db : DB),
      answers.foldl
        (fun d p => insert_response d survey_id p.1 respondent p.2 now) db =
      { db with
          responses := db.responses ++
            mkResponses db.next_response_id survey_id respondent now answers,
          next_response_id := db.next_response_id + answers.length } := by
  intro answers
  induction answers with
  | nil => intro db; simp [mkResponses]
  | cons p rest ih =>
    intro db
    rw [List.foldl_cons, ih]
    simp only [insert_response, mkResponses, DB.mk.injEq, List.append_assoc,
      List.singleton_append, List.length_cons]
    and_intros <;> first | trivial | omega

lemma foldl_insert_question (survey_id : Nat) :
    ∀ (qd : List (String × String × String)) (db : DB),
      qd.foldl
        (fun d q =>
          if pyStrip q.1 != "" then
            insert_question d survey_id (pyStrip q.1) q.2.1 (pyStrip q.2.2)
          else d) db =
      { db with
          questions := db.questions ++
            mkQuestions db.next_question_id survey_id
              (qd.filter (fun q => pyStrip q.1 != "")),
          next_question_id := db.next_question_id +
            (qd.filter (fun q => pyStrip q.1 != "")).length } := by
  intro qd
  induction qd with
  | nil => intro db; simp [mkQuestions]
  | cons q rest ih =>
    intro db
    by_cases hq : (pyStrip q.1 != "") = true
    · rw [List.foldl_cons, if_pos hq, ih]
      simp only [insert_question, List.filter_cons, hq, if_true, mkQuestions,
        DB.mk.injEq, List.append_assoc, List.singleton_append,
        List.length_cons]
      and_intros <;> first | trivial | omega
    · rw [List.foldl_cons, if_neg hq, ih]
      rw [List.filter_cons, if_neg hq]

/-- C1: behaviour of survey-response submission. With one answer collected
per question of the survey, the handler either rejects the whole submission
with the single error message and leaves the database unchanged (when some
answer strips to empty), or appends exactly one response row per question,
all rows carrying the stripped respondent name and the same timestamp. -/
theorem submitResponses_spec (db : DB) (survey_id : Nat)
    (respondent now : String) (inp : Nat → String) :
    submitResponses db survey_id respondent
      ((fetch_questions db survey_id).map (fun q => (q.id, inp q.id))) now =
    if ((fetch_questions db survey_id).map (fun q => (q.id, inp q.id))).any
        (fun p => pyStrip p.2 == "") then
      (db, Outcome.error "Please answer all questions before submitting.")
    else
      ({ db with
          responses := db.responses ++
            mkResponses db.next_response_id survey_id (pyStrip respondent)
              now
              ((fetch_questions db survey_id).map (fun q => (q.id, inp q.id))),
          next_response_id := db.next_response_id +
            (fetch_questions db survey_id).length }, Outcome.ok) := by
  by_cases h : ((fetch_questions db survey_id).map
      (fun q => (q.id, inp q.id))).any (fun p => pyStrip p.2 == "")
  · simp [submitResponses, h]
  · simp only [submitResponses, h, if_neg, Bool.false_eq_true,
      not_false_eq_true, if_pos]
    rw [foldl_insert_response]
    simp

/-- C2: behaviour of survey creation. An empty (stripped) title writes no
survey row and no question rows; otherwise exactly one survey row is
written and, of the authored batch, exactly the slots with non-empty
stripped text are persisted, in their original order, with stripped text
and options and consecutive generated ids. -/
theorem createSurvey_spec (db : DB) (title desc now : String)
    (question_data : List (String × String × String)) :
    createSurvey db title desc question_data now =
    if pyStrip title == "" then (db, none)
    else
      ({ db with
          surveys := db.surveys ++
            [⟨db.next_survey_id, pyStrip title, pyStrip desc, now⟩],
          next_survey_id := db.next_survey_id + 1,
          questions := db.questions ++
            mkQuestions db.next_question_id db.next_survey_id
              (question_data.filter (fun q => pyStrip q.1 != "")),
          next_question_id := db.next_question_id +
            (question_data.filter (fun q => pyStrip q.1 != "")).length },
        some db.next_survey_id) := by
  by_cases h : pyStrip title == ""
  · simp [createSurvey, h]
  · simp only [createSurvey, h, Bool.false_eq_true, not_false_eq_true,
      if_neg]
    rw [foldl_insert_question]
    simp [insert_survey]

/-- Model of the analytics per-question response selection (line 313):
`sub = rdf[rdf["question_text"] == qtext]` filters the joined response
frame by question text. -/
def analysisSubset (rows : List JoinedRow) (question_text : String) :
    List JoinedRow :=
  rows.filter (fun r => r.question_text == question_text)

/-- String-level core of `pd.to_numeric(..., errors="coerce")` on one
answer: optional surrounding whitespace, optional sign, decimal digits with
at most one decimal point. Returns the signed mantissa and the number of
fractional digits (so the value is `mantissa / 10 ^ exponent`);
unparseable answers give `none`. -/
def parseDecimal (s : String) : Option (Int × Nat) :=
  let cs := (pyStrip s).toList
  let neg : Bool := cs.head? = some '-'
  let cs := if cs.head? = some '-' ∨ cs.head? = some '+' then cs.tail else cs
  let ip := cs.takeWhile (fun c => c != '.')
  let rest := cs.drop ip.length
  let fp := rest.tail
  if rest ≠ [] ∧ rest.head? ≠ some '.' then none
  else if fp.any (fun c => c == '.') then none
  else if ip ++ fp = [] then none
  else if (ip ++ fp).all Char.isDigit then
    let m : Nat := (ip ++ fp).foldl (fun a c => a * 10 + (c.toNat - 48)) 0
    some (if neg then -(m : Int) else (m : Int), fp.length)
  else none

/-- Model of `pd.to_numeric(..., errors="coerce")` on one answer string:
the parsed decimal interpreted as an exact rational. -/
def parseNumber (s : String) : Option Rat :=
  (parseDecimal s).map (fun p => (p.1 : Rat) / (10 : Rat) ^ p.2)

/-- Model of `pd.to_numeric(sub["answer"], errors="coerce").dropna()`
(line 318): the multiset of answers that parse as numbers. -/
def ratingValues (answers : List String) : List Rat :=
  answers.filterMap parseNumber

/-- Mean of the valid rating values, as reported on line 320. -/
def ratingMean (vals : List Rat) : Rat :=
  vals.foldl (· + ·) 0 / (vals.length : Rat)

/-- Count of one value in a list of rating values (`value_counts()`). -/
def countVal (vals : List Rat) (v : Rat) : Nat :=
  vals.countP (fun x => decide (x = v))

/-- Model of `sub_num.value_counts().sort_index()` (line 321): the distinct
valid rating values in ascending order, each with its multiplicity. -/
def ratingBreakdown (vals : List Rat) : List (Rat × Nat) :=
  ((vals.foldl (fun acc v => if acc.any (fun x => decide (x = v)) then acc
      else acc ++ [v]) []).mergeSort (fun a b => decide (a ≤ b))).map
    (fun v => (v, countVal vals v))

/-- Count of one chosen option among the answers of an mcq question. -/
def countStr (answers : List String) (v : String) : Nat :=
  answers.countP (fun x => x == v)

/-- Model of `sub["answer"].value_counts()` (line 325): the distinct chosen
options, each with the count of answers equal to it, most frequent first
(ties in first-appearance order). -/
def valueCountsStr (answers : List String) : List (String × Nat) :=
  ((answers.foldl (fun acc v => if acc.any (fun x => x == v) then acc
      else acc ++ [v]) []).map (fun v => (v, countStr answers v))).mergeSort
    (fun a b => decide (b.2 ≤ a.2))

/-- Input widget rendered for one question in the user view. -/
inductive Widget where
  | textArea
  | radio (options : List String)
  | slider (lo hi dflt : Nat)
  | textInput
deriving DecidableEq, Repr

/-- Model of Python's `s.split(sep)` for a one-character separator: split
at every occurrence, keeping empty pieces. -/
def splitOnChar (sep : Char) : List Char → List (List Char)
  | [] => [[]]
  | c :: cs =>
    match splitOnChar sep cs with
    | [] => [[]]
    | r :: rs => if c == sep then [] :: r :: rs else (c :: r) :: rs

/-- Model of the mcq option parsing (line 192): split the (already
stripped) stored options string on commas, strip each item, keep the
non-empty ones. -/
def mcqParsedOpts (options_raw : String) : List String :=
  ((splitOnChar ',' (pyStrip options_raw).toList).map
    (fun cs => pyStrip ⟨cs⟩)).filter (fun o => o != "")

/-- Model of the question widget dispatch (lines 185-199): a text area for
`"text"`, a radio over the parsed options — or the fixed fallback list when
none parse — for `"mcq"`, a 1-5 slider defaulting to 3 for `"rating"`, and
a plain text input for every other stored type. -/
def renderWidget (q : QuestionRec) : Widget :=
  if q.qtype == "text" then Widget.textArea
  else if q.qtype == "mcq" then
    let opts := mcqParsedOpts q.options
    Widget.radio (if opts.isEmpty then ["Option 1", "Option 2"] else opts)
  else if q.qtype == "rating" then Widget.slider 1 5 3
  else Widget.textInput

/-- Rounding of `100 * q` to the nearest integer, ties to even, matching
Python's fixed-point rendering `f"{x:.2f}"` of an exact value. -/
def roundHalfEven100 (q : Rat) : Int :=
  let n := q.num * 100
  let d := (q.den : Int)
  let f := Int.fdiv n d
  let r := n - f * d
  if 2 * r < d then f
  else if d < 2 * r then f + 1
  else if f % 2 = 0 then f else f + 1

/-- Left-pad a two-digit field with a zero. -/
def pad2 (n : Nat) : String :=
  if n < 10 then "0" ++ toString n else toString n

/-- Rendering of a rational to two decimal places (`f"{mean:.2f}"` on line
320). -/
def formatTwoDec (q : Rat) : String :=
  let n := roundHalfEven100 q
  if n < 0 then
    "-" ++ toString ((-n).toNat / 100) ++ "." ++ pad2 ((-n).toNat % 100)
  else toString (n.toNat / 100) ++ "." ++ pad2 (n.toNat % 100)

lemma ratingValues_eq_filterMap (l : List String) :
    ratingValues l = (l.filterMap parseDecimal).map
      (fun p => (p.1 : Rat) / (10 : Rat) ^ p.2) :=
  (List.map_filterMap _ _ _).symm

lemma mem_foldl_distinct (xs : List String) (v : String) :
    ∀ acc : List String,
      (v ∈ xs.foldl (fun acc v => if acc.any (fun x => x == v) then acc
        else acc ++ [v]) acc ↔ v ∈ acc ∨ v ∈ xs) := by
  induction xs with
  | nil => intro acc; simp
  | cons x xs ih =>
    intro acc
    by_cases hx : acc.any (fun y => y == x) = true
    · simp only [List.foldl_cons, hx, if_true, ih]
      simp only [List.any_eq_true, beq_iff_eq] at hx
      obtain ⟨y, hy, rfl⟩ := hx
      constructor
      · rintro (h | h)
        · exact Or.inl h
        · exact Or.inr (List.mem_cons_of_mem _ h)
      · rintro (h | h)
        · exact Or.inl h
        · rcases List.mem_cons.1 h with rfl | h
          · exact Or.inl hy
          · exact Or.inr h
    · simp only [List.foldl_cons, hx, if_false, Bool.false_eq_true, ih]
      simp [List.mem_append, List.mem_cons]
      tauto

unseal List.merge List.mergeSort in
/-- C5: multiple-choice aggregation. In general, every distinct chosen
option appears in the `value_counts` breakdown paired with the number of
answers equal to it; in particular over `["Good", "Good", "Poor"]` the
breakdown is exactly `Good ↦ 2, Poor ↦ 1`. -/
theorem mcq_value_counts :
    (∀ (answers : List String) (v : String), v ∈ answers →
      (v, countStr answers v) ∈ valueCountsStr answers ∧
      countStr answers v = (answers.filter (fun x => x == v)).length) ∧
    valueCountsStr ["Good", "Good", "Poor"] = [("Good", 2), ("Poor", 1)] := by
  constructor
  · intro answers v hv
    constructor
    · have hmem : v ∈ answers.foldl (fun acc v =>
          if acc.any (fun x => x == v) then acc else acc ++ [v]) [] :=
        (mem_foldl_distinct answers v []).2 (Or.inr hv)
      have : (v, countStr answers v) ∈ (answers.foldl (fun acc v =>
          if acc.any (fun x => x == v) then acc else acc ++ [v]) []).map
            (fun v => (v, countStr answers v)) :=
        List.mem_map_of_mem _ hmem
      exact (List.mergeSort_perm _ _).mem_iff.2 this
    · exact List.countP_eq_length_filter _ _
  · decide

theorem mcq_value_counts_witness :
    ("Good" ∈ (["Good", "Good", "Poor"] : List String)) ∧
    (("Good", countStr ["Good", "Good", "Poor"] "Good") ∈
        valueCountsStr ["Good", "Good", "Poor"] ∧
      countStr ["Good", "Good", "Poor"] "Good" =
        ((["Good", "Good", "Poor"] : List String).filter
          (fun x => x == "Good")).length) :=
  ⟨by decide, mcq_value_counts.1 ["Good", "Good", "Poor"] "Good" (by decide)⟩

unseal List.merge List.mergeSort in
/-- C4: rating aggregation over the answers `["3", "5", "x", "1"]`: each
answer is parsed as a number, the unparseable `"x"` is discarded, three
valid values remain, their mean is `3` — rendered to two decimal places as
`"3.00"` — and the count-by-value breakdown is `1 ↦ 1, 3 ↦ 1, 5 ↦ 1`. -/
theorem rating_analysis_example :
    ratingValues ["3", "5", "x", "1"] = [3, 5, 1] ∧
    parseNumber "x" = none ∧
    (ratingValues ["3", "5", "x", "1"]).length = 3 ∧
    ratingMean (ratingValues ["3", "5", "x", "1"]) = 3 ∧
    formatTwoDec (ratingMean (ratingValues ["3", "5", "x", "1"])) = "3.00" ∧
    ratingBreakdown (ratingValues ["3", "5", "x", "1"]) =
      [(1, 1), (3, 1), (5, 1)] := by
  have h2 : ratingValues ["3", "5", "x", "1"] = [3, 5, 1] := by
    rw [ratingValues_eq_filterMap]
    rw [show (["3", "5", "x", "1"].filterMap parseDecimal) =
      [(3, 0), (5, 0), (1, 0)] from by decide]
    norm_num
  have hm : ratingMean (ratingValues ["3", "5", "x", "1"]) = 3 := by
    rw [h2]
    simp [ratingMean]
    norm_num
  refine ⟨h2, by decide, by rw [h2]; rfl, hm, ?_, ?_⟩
  · rw [hm]
    decide
  · rw [h2]
    decide

/-- C3: per-question analytics selects responses by matching question TEXT,
not id. If a survey holds two questions with the same text, both get the
same (merged) response subset, and a response submitted for the second
question lands in the first question's per-question summary. -/
theorem analytics_filters_by_text (db : DB) (sid : Nat)
    (q1 q2 : QuestionRec) (r : ResponseRec)
    (hq1 : q1 ∈ db.questions) (hq2 : q2 ∈ db.questions)
    (hs1 : q1.survey_id = sid) (hs2 : q2.survey_id = sid)
    (htext : q1.question_text = q2.question_text)
    (hr : r ∈ db.responses) (hrs : r.survey_id = sid)
    (hfind : db.questions.find? (fun q => q.id == r.question_id) = some q2) :
    analysisSubset (fetch_responses db sid) q1.question_text =
      analysisSubset (fetch_responses db sid) q2.question_text ∧
    (⟨r.id, r.respondent_name, r.answer, r.submitted_at,
        q2.question_text, q2.qtype⟩ : JoinedRow) ∈
      analysisSubset (fetch_responses db sid) q1.question_text := by
  constructor
  · rw [htext]
  · have hjoin : (⟨r.id, r.respondent_name, r.answer, r.submitted_at,
        q2.question_text, q2.qtype⟩ : JoinedRow) ∈
        (db.responses.filter (fun x => x.survey_id == sid)).filterMap
          (fun x => (db.questions.find? (fun q => q.id == x.question_id)).map
            (fun q => ⟨x.id, x.respondent_name, x.answer, x.submitted_at,
              q.question_text, q.qtype⟩)) := by
      apply List.mem_filterMap.2
      refine ⟨r, List.mem_filter.2 ⟨hr, by simp [hrs]⟩, ?_⟩
      rw [hfind]
      rfl
    have hsorted : (⟨r.id, r.respondent_name, r.answer, r.submitted_at,
        q2.question_text, q2.qtype⟩ : JoinedRow) ∈ fetch_responses db sid :=
      (List.mergeSort_perm _ _).mem_iff.2 hjoin
    exact List.mem_filter.2 ⟨hsorted, by simp [htext]⟩

theorem analytics_filters_by_text_witness :
    (let db : DB := ⟨[], [⟨1, "S", "", "t0"⟩],
        [⟨1, 1, "Same", "text", ""⟩, ⟨2, 1, "Same", "text", ""⟩],
        [⟨1, 1, 2, "bob", "hi", "t1"⟩], 2, 3, 2⟩
     let q1 : QuestionRec := ⟨1, 1, "Same", "text", ""⟩
     let q2 : QuestionRec := ⟨2, 1, "Same", "text", ""⟩
     let r : ResponseRec := ⟨1, 1, 2, "bob", "hi", "t1"⟩
     q1 ∈ db.questions ∧ q2 ∈ db.questions ∧
       db.questions.find? (fun q => q.id == r.question_id) = some q2 ∧
       (analysisSubset (fetch_responses db 1) q1.question_text =
         analysisSubset (fetch_responses db 1) q2.question_text ∧
       (⟨r.id, r.respondent_name, r.answer, r.submitted_at,
           q2.question_text, q2.qtype⟩ : JoinedRow) ∈
         analysisSubset (fetch_responses db 1) q1.question_text)) :=
  ⟨by decide, by decide, by decide,
   analytics_filters_by_text _ 1 _ _ _ (by decide) (by decide) (by decide)
     (by decide) (by decide) (by decide) (by decide) (by decide)⟩

/-- C9: a question whose stored type is none of `"text"`, `"mcq"`,
`"rating"` falls through to the plain text-input widget, so its answer is
free text; if that answer strips to empty, the whole submission is
rejected, exactly as for free-text questions. -/
theorem unknown_qtype_renders_text_input (q : QuestionRec)
    (h1 : q.qtype ≠ "text") (h2 : q.qtype ≠ "mcq") (h3 : q.qtype ≠ "rating")
    (db : DB) (sid : Nat) (respondent now a : String)
    (answers : List (Nat × String))
    (ha : (q.id, a) ∈ answers) (he : pyStrip a = "") :
    renderWidget q = Widget.textInput ∧
    submitResponses db sid respondent answers now =
      (db, Outcome.error "Please answer all questions before submitting.") := by
  constructor
  · simp [renderWidget, h1, h2, h3]
  · have hany : answers.any (fun p => pyStrip p.2 == "") = true :=
      List.any_eq_true.2 ⟨(q.id, a), ha, by simp [he]⟩
    simp [submitResponses, hany]

theorem unknown_qtype_renders_text_input_witness :
    (let q : QuestionRec := ⟨1, 1, "When?", "date", ""⟩
     q.qtype ≠ "text" ∧ q.qtype ≠ "mcq" ∧ q.qtype ≠ "rating" ∧
       pyStrip " " = "" ∧
       (renderWidget q = Widget.textInput ∧
        submitResponses emptyDB 1 "bob" [(1, " ")] "t0" =
          (emptyDB,
           Outcome.error "Please answer all questions before submitting."))) :=
  ⟨by decide, by decide, by decide, by decide,
   unknown_qtype_renders_text_input _ (by decide) (by decide) (by decide)
     emptyDB 1 "bob" "t0" " " [(1, " ")] (by decide) (by decide)⟩

/-- C10: when the stored options string of an mcq question parses to no
non-empty comma-separated item, the user view falls back to the fixed
option list, and any rendered radio list for such a question is
non-empty. -/
theorem mcq_empty_options_fallback (q : QuestionRec) (hq : q.qtype = "mcq")
    (h : mcqParsedOpts q.options = []) :
    renderWidget q = Widget.radio ["Option 1", "Option 2"] ∧
    (∀ opts, renderWidget q = Widget.radio opts → opts ≠ []) := by
  have hr : renderWidget q = Widget.radio ["Option 1", "Option 2"] := by
    simp [renderWidget, hq, h]
  refine ⟨hr, ?_⟩
  intro opts hopts
  rw [hr] at hopts
  cases hopts
  simp

theorem mcq_empty_options_fallback_witness :
    (let q : QuestionRec := ⟨1, 1, "Pick", "mcq", " , ,, "⟩
     q.qtype = "mcq" ∧ mcqParsedOpts q.options = [] ∧
       (renderWidget q = Widget.radio ["Option 1", "Option 2"] ∧
        (∀ opts, renderWidget q = Widget.radio opts → opts ≠ []))) :=
  ⟨by decide, by decide,
   mcq_empty_options_fallback _ (by decide) (by decide)⟩

lemma createSurvey_surveys (db : DB) (title desc now : String)
    (question_data : List (String × String × String))
    (ht : ¬ pyStrip title == "") :
    (createSurvey db title desc question_data now).1.surveys =
      db.surveys ++ [⟨db.next_survey_id, pyStrip title, pyStrip desc, now⟩] ∧
    (createSurvey db title desc question_data now).2 =
      some db.next_survey_id := by
  simp only [createSurvey, ht, Bool.false_eq_true, not_false_eq_true, if_neg]
  rw [foldl_insert_question]
  simp [insert_survey]

/-- C7: the survey listing is newest-first by generated id, and a survey
just created with a non-empty (stripped) title is retrievable and heads the
listing, provided every pre-existing survey id is below the next generated
id (the AUTOINCREMENT invariant). -/
theorem created_survey_first_in_listing (db : DB)
    (hinv : ∀ t ∈ db.surveys, t.id < db.next_survey_id)
    (title desc now : String)
    (question_data : List (String × String × String))
    (ht : pyStrip title ≠ "") :
    ∃ s : SurveyRec,
      (createSurvey db title desc question_data now).2 = some s.id ∧
      s ∈ (createSurvey db title desc question_data now).1.surveys ∧
      s.title = pyStrip title ∧
      (fetch_surveys (createSurvey db title desc question_data now).1).head? =
        some s ∧
      List.Sorted (fun a b : SurveyRec => b.id ≤ a.id)
        (fetch_surveys (createSurvey db title desc question_data now).1) := by
  have ht' : ¬ pyStrip title == "" := by simpa using ht
  obtain ⟨hsv, hid⟩ := createSurvey_surveys db title desc now question_data ht'
  refine ⟨⟨db.next_survey_id, pyStrip title, pyStrip desc, now⟩,
    by rw [hid], by rw [hsv]; simp, rfl, ?_, ?_⟩
  case refine_2 =>
    unfold fetch_surveys
    exact (List.sorted_mergeSort
      (by intro a b c h1 h2; simp at h1 h2 ⊢; omega)
      (by intro a b; simp; omega)
      ((createSurvey db title desc question_data now).1.surveys)).imp
      (fun h => by simpa using h)
  have hperm := List.mergeSort_perm
    ((createSurvey db title desc question_data now).1.surveys)
    (fun a b : SurveyRec => decide (b.id ≤ a.id))
  have hsorted : List.Sorted (fun a b : SurveyRec => b.id ≤ a.id)
      (fetch_surveys (createSurvey db title desc question_data now).1) := by
    unfold fetch_surveys
    exact (List.sorted_mergeSort
      (by intro a b c h1 h2; simp at h1 h2 ⊢; omega)
      (by intro a b; simp; omega)
      ((createSurvey db title desc question_data now).1.surveys)).imp
      (fun h => by simpa using h)
  have hmem : (⟨db.next_survey_id, pyStrip title, pyStrip desc, now⟩ :
      SurveyRec) ∈ fetch_surveys (createSurvey db title desc question_data now).1 := by
    apply hperm.mem_iff.2
    rw [hsv]
    simp
  cases hfs : fetch_surveys (createSurvey db title desc question_data now).1 with
  | nil => rw [hfs] at hmem; simp at hmem
  | cons h t =>
    have hh : h ∈ (createSurvey db title desc question_data now).1.surveys := by
      apply hperm.mem_iff.1
      show h ∈ fetch_surveys (createSurvey db title desc question_data now).1
      rw [hfs]
      simp
    rw [hfs] at hmem hsorted
    rcases List.mem_cons.1 hmem with heq | hst
    · simp [← heq]
    · rcases List.mem_append.1 (by rw [hsv] at hh; exact hh) with hold | hnew
      · exfalso
        have hle := List.rel_of_sorted_cons hsorted _ hst
        have := hinv h hold
        simp at hle
        omega
      · simp at hnew
        rw [hnew]
        rfl

/-- Characters that force quoting of a CSV field under pandas'
QUOTE_MINIMAL policy: the delimiter, the quote char, and the line
terminator characters. -/
def csvSpecial (c : Char) : Bool :=
  c == ',' || c == '"' || c == '\n' || c == '\r'

def escapeQuotes : List Char → List Char
  | [] => []
  | c :: cs => if c == '"' then '"' :: '"' :: escapeQuotes cs
               else c :: escapeQuotes cs

def encodeField (f : String) : List Char :=
  if f.toList.any csvSpecial then '"' :: (escapeQuotes f.toList ++ ['"'])
  else f.toList

def encodeRowChars : List String → List Char
  | [] => []
  | [f] => encodeField f
  | f :: fs => encodeField f ++ ',' :: encodeRowChars fs

def encodeCsvChars : List (List String) → List Char
  | [] => []
  | r :: rs => encodeRowChars r ++ '\n' :: encodeCsvChars rs

/-- Model of `rdf.to_csv(index=False)` (line 285): each row
comma-separated with QUOTE_MINIMAL quoting (quotes doubled inside quoted
fields), each row terminated by a newline. -/
def encodeCsv (table : List (List String)) : String :=
  ⟨encodeCsvChars table⟩

/-- State of a standard CSV reader: at a line start, at a field start
after a delimiter, inside an unquoted field, inside a quoted field, or
just after a quote inside a quoted field. -/
inductive CsvState where
  | lineStart
  | fieldStart
  | unquoted
  | quoted
  | quoteEnd
deriving DecidableEq, Repr

/-- Accumulator of the CSV reader: completed rows (reversed), the fields
of the current row (reversed), the characters of the current field
(reversed), and the reader state. -/
structure CsvAcc where
  rows : List (List String)
  row : List String
  field : List Char
  state : CsvState
deriving DecidableEq, Repr

/-- One step of the standard CSV reader. -/
def csvStep (a : CsvAcc) (c : Char) : CsvAcc :=
  match a.state with
  | CsvState.lineStart =>
    if c == '"' then { a with state := CsvState.quoted }
    else if c == ',' then
      { a with row := (⟨a.field.reverse⟩ : String) :: a.row, field := [],
               state := CsvState.fieldStart }
    else if c == '\n' then a
    else { a with field := c :: a.field, state := CsvState.unquoted }
  | CsvState.fieldStart =>
    if c == '"' then { a with state := CsvState.quoted }
    else if c == ',' then
      { a with row := (⟨a.field.reverse⟩ : String) :: a.row, field := [] }
    else if c == '\n' then
      { a with rows := ((⟨a.field.reverse⟩ : String) :: a.row).reverse :: a.rows,
               row := [], field := [], state := CsvState.lineStart }
    else { a with field := c :: a.field, state := CsvState.unquoted }
  | CsvState.unquoted =>
    if c == ',' then
      { a with row := (⟨a.field.reverse⟩ : String) :: a.row, field := [],
               state := CsvState.fieldStart }
    else if c == '\n' then
      { a with rows := ((⟨a.field.reverse⟩ : String) :: a.row).reverse :: a.rows,
               row := [], field := [], state := CsvState.lineStart }
    else { a with field := c :: a.field }
  | CsvState.quoted =>
    if c == '"' then { a with state := CsvState.quoteEnd }
    else { a with field := c :: a.field }
  | CsvState.quoteEnd =>
    if c == '"' then { a with field := '"' :: a.field, state := CsvState.quoted }
    else if c == ',' then
      { a with row := (⟨a.field.reverse⟩ : String) :: a.row, field := [],
               state := CsvState.fieldStart }
    else if c == '\n' then
      { a with rows := ((⟨a.field.reverse⟩ : String) :: a.row).reverse :: a.rows,
               row := [], field := [], state := CsvState.lineStart }
    else { a with field := c :: a.field, state := CsvState.unquoted }

/-- Parsing an exported CSV string: run the reader over the characters
and flush any pending row (none when the input ends in a newline). -/
def parseCsv (s : String) : List (List String) :=
  let a := s.toList.foldl csvStep ⟨[], [], [], CsvState.lineStart⟩
  if a.state = CsvState.lineStart then a.rows.reverse
  else (((⟨a.field.reverse⟩ : String) :: a.row).reverse :: a.rows).reverse


lemma string_mk_toList (f : String) : (⟨f.toList⟩ : String) = f := rfl

lemma foldl_unquoted (cs : List Char) (h : ∀ c ∈ cs, csvSpecial c = false) :
    ∀ (rows : List (List String)) (row : List String) (fld : List Char),
      List.foldl csvStep ⟨rows, row, fld, CsvState.unquoted⟩ cs =
        ⟨rows, row, cs.reverse ++ fld, CsvState.unquoted⟩ := by
  induction cs with
  | nil => intro rows row fld; simp
  | cons c cs ih =>
    intro rows row fld
    have hc := h c (List.mem_cons_self _ _)
    simp only [csvSpecial, Bool.or_eq_false_iff, beq_eq_false_iff_ne] at hc
    obtain ⟨⟨⟨hcm, hqt⟩, hnl⟩, hcr⟩ := hc
    rw [List.foldl_cons,
      show csvStep ⟨rows, row, fld, CsvState.unquoted⟩ c =
        ⟨rows, row, c :: fld, CsvState.unquoted⟩ from by
          simp [csvStep, hcm, hnl],
      ih (fun x hx => h x (List.mem_cons_of_mem _ hx))]
    simp

lemma foldl_quoted (cs : List Char) :
    ∀ (rows : List (List String)) (row : List String) (fld : List Char),
      List.foldl csvStep ⟨rows, row, fld, CsvState.quoted⟩ (escapeQuotes cs) =
        ⟨rows, row, cs.reverse ++ fld, CsvState.quoted⟩ := by
  induction cs with
  | nil => intro rows row fld; simp [escapeQuotes]
  | cons c cs ih =>
    intro rows row fld
    by_cases hc : c = '"'
    · subst hc
      rw [show escapeQuotes ('"' :: cs) = '"' :: '"' :: escapeQuotes cs from rfl,
        List.foldl_cons, List.foldl_cons,
        show csvStep ⟨rows, row, fld, CsvState.quoted⟩ '"' =
          ⟨rows, row, fld, CsvState.quoteEnd⟩ from by simp [csvStep],
        show csvStep ⟨rows, row, fld, CsvState.quoteEnd⟩ '"' =
          ⟨rows, row, '"' :: fld, CsvState.quoted⟩ from by simp [csvStep],
        ih]
      simp
    · rw [show escapeQuotes (c :: cs) = c :: escapeQuotes cs from by
        simp [escapeQuotes, hc],
        List.foldl_cons,
        show csvStep ⟨rows, row, fld, CsvState.quoted⟩ c =
          ⟨rows, row, c :: fld, CsvState.quoted⟩ from by
          simp [csvStep, hc],
        ih]
      simp

def fieldEndState (f : String) (s0 : CsvState) : CsvState :=
  if f.toList.any csvSpecial then CsvState.quoteEnd
  else if f.toList.isEmpty then s0 else CsvState.unquoted

lemma foldl_encodeField (f : String) (s0 : CsvState)
    (hs0 : s0 = CsvState.lineStart ∨ s0 = CsvState.fieldStart) :
    ∀ (rows : List (List String)) (row : List String) (rest : List Char),
      List.foldl csvStep ⟨rows, row, [], s0⟩ (encodeField f ++ rest) =
        List.foldl csvStep
          ⟨rows, row, f.toList.reverse, fieldEndState f s0⟩ rest := by
  intro rows row rest
  by_cases hq : f.toList.any csvSpecial
  · rw [show encodeField f = '"' :: (escapeQuotes f.toList ++ ['"']) from by
      rw [encodeField, if_pos hq],
      show fieldEndState f s0 = CsvState.quoteEnd from by
        rw [fieldEndState, if_pos hq]]
    have hstep : csvStep ⟨rows, row, [], s0⟩ '"' =
        ⟨rows, row, [], CsvState.quoted⟩ := by
      rcases hs0 with rfl | rfl <;> simp [csvStep]
    rw [List.cons_append, List.foldl_cons, hstep, List.append_assoc,
      List.singleton_append, List.foldl_append, foldl_quoted,
      List.foldl_cons]
    rw [show csvStep ⟨rows, row, f.toList.reverse ++ [], CsvState.quoted⟩ '"' =
      ⟨rows, row, f.toList.reverse ++ [], CsvState.quoteEnd⟩ from by
        simp [csvStep]]
    simp
  · have hq' : f.toList.any csvSpecial = false := by
      revert hq; cases f.toList.any csvSpecial <;> simp
    have hall : ∀ x ∈ f.toList, csvSpecial x = false := by
      intro x hx
      by_contra hxx
      have : csvSpecial x = true := by
        revert hxx; cases csvSpecial x <;> simp
      rw [List.any_eq_true] at hq
      exact hq ⟨x, hx, this⟩
    rw [show encodeField f = f.toList from by rw [encodeField, if_neg hq]]
    cases hfl : f.toList with
    | nil =>
      rw [show fieldEndState f s0 = s0 from by
        rw [fieldEndState, if_neg hq, hfl]; rfl]
      simp [hfl]
    | cons c cs =>
      have hc := hall c (by rw [hfl]; exact List.mem_cons_self _ _)
      simp only [csvSpecial, Bool.or_eq_false_iff, beq_eq_false_iff_ne] at hc
      obtain ⟨⟨⟨hcm, hqt⟩, hnl⟩, hcr⟩ := hc
      have hstep : csvStep ⟨rows, row, [], s0⟩ c =
          ⟨rows, row, [c], CsvState.unquoted⟩ := by
        rcases hs0 with rfl | rfl <;> simp [csvStep, hcm, hqt, hnl]
      rw [List.cons_append, List.foldl_cons, hstep, List.foldl_append,
        foldl_unquoted cs
          (fun x hx => hall x (by rw [hfl]; exact List.mem_cons_of_mem _ hx)),
        show fieldEndState f s0 = CsvState.unquoted from by
          rw [fieldEndState, if_neg hq, hfl]; rfl]
      simp [hfl]

lemma csvStep_comma (rows : List (List String)) (row : List String)
    (fld : List Char) (st : CsvState) (h : st ≠ CsvState.quoted) :
    csvStep ⟨rows, row, fld, st⟩ ',' =
      ⟨rows, (⟨fld.reverse⟩ : String) :: row, [], CsvState.fieldStart⟩ := by
  cases st <;> simp [csvStep] at h ⊢

lemma csvStep_newline (rows : List (List String)) (row : List String)
    (fld : List Char) (st : CsvState) (h1 : st ≠ CsvState.quoted)
    (h2 : st ≠ CsvState.lineStart) :
    csvStep ⟨rows, row, fld, st⟩ '\n' =
      ⟨((⟨fld.reverse⟩ : String) :: row).reverse :: rows, [], [],
        CsvState.lineStart⟩ := by
  cases st <;> simp [csvStep] at h1 h2 ⊢

lemma fieldEndState_ne_quoted (f : String) (s0 : CsvState)
    (h : s0 ≠ CsvState.quoted) : fieldEndState f s0 ≠ CsvState.quoted := by
  rw [fieldEndState]
  by_cases h1 : f.toList.any csvSpecial
  · rw [if_pos h1]; simp
  · rw [if_neg h1]
    by_cases h2 : f.toList.isEmpty
    · rw [if_pos h2]; exact h
    · rw [if_neg h2]; simp

lemma fieldEndState_fieldStart_ne_lineStart (f : String) :
    fieldEndState f CsvState.fieldStart ≠ CsvState.lineStart := by
  rw [fieldEndState]
  by_cases h1 : f.toList.any csvSpecial
  · rw [if_pos h1]; simp
  · rw [if_neg h1]
    by_cases h2 : f.toList.isEmpty
    · rw [if_pos h2]; simp
    · rw [if_neg h2]; simp

lemma foldl_row_fieldStart :
    ∀ (fields : List String), fields ≠ [] →
    ∀ (rows : List (List String)) (row : List String) (rest : List Char),
      List.foldl csvStep ⟨rows, row, [], CsvState.fieldStart⟩
          (encodeRowChars fields ++ '\n' :: rest) =
        List.foldl csvStep ⟨(row.reverse ++ fields) :: rows, [], [],
          CsvState.lineStart⟩ rest := by
  intro fields
  induction fields with
  | nil => intro h; exact absurd rfl h
  | cons f fs ih =>
    intro _ rows row rest
    cases fs with
    | nil =>
      rw [show encodeRowChars [f] = encodeField f from rfl,
        foldl_encodeField f CsvState.fieldStart (Or.inr rfl),
        List.foldl_cons,
        csvStep_newline _ _ _ _
          (fieldEndState_ne_quoted f CsvState.fieldStart (by simp))
          (fieldEndState_fieldStart_ne_lineStart f)]
      simp [string_mk_toList]
    | cons g gs =>
      rw [show encodeRowChars (f :: g :: gs) =
          encodeField f ++ ',' :: encodeRowChars (g :: gs) from rfl,
        List.append_assoc, List.cons_append,
        foldl_encodeField f CsvState.fieldStart (Or.inr rfl),
        List.foldl_cons,
        csvStep_comma _ _ _ _
          (fieldEndState_ne_quoted f CsvState.fieldStart (by simp))]
      rw [show (⟨f.toList.reverse.reverse⟩ : String) = f from by
        simp [string_mk_toList]]
      rw [ih (by simp) rows (f :: row) rest]
      simp

lemma foldl_row_lineStart (f : String) (fs : List String) (hfs : fs ≠ [])
    (rows : List (List String)) (rest : List Char) :
    List.foldl csvStep ⟨rows, [], [], CsvState.lineStart⟩
        (encodeRowChars (f :: fs) ++ '\n' :: rest) =
      List.foldl csvStep ⟨(f :: fs) :: rows, [], [], CsvState.lineStart⟩
        rest := by
  cases fs with
  | nil => exact absurd rfl hfs
  | cons g gs =>
    rw [show encodeRowChars (f :: g :: gs) =
        encodeField f ++ ',' :: encodeRowChars (g :: gs) from rfl,
      List.append_assoc, List.cons_append,
      foldl_encodeField f CsvState.lineStart (Or.inl rfl),
      List.foldl_cons,
      csvStep_comma _ _ _ _
        (fieldEndState_ne_quoted f CsvState.lineStart (by simp))]
    rw [show (⟨f.toList.reverse.reverse⟩ : String) = f from by
      simp [string_mk_toList]]
    rw [foldl_row_fieldStart (g :: gs) (by simp) rows [f] rest]
    simp

lemma foldl_table :
    ∀ (table : List (List String)), (∀ r ∈ table, 2 ≤ r.length) →
    ∀ (rows : List (List String)),
      List.foldl csvStep ⟨rows, [], [], CsvState.lineStart⟩
          (encodeCsvChars table) =
        ⟨table.reverse ++ rows, [], [], CsvState.lineStart⟩ := by
  intro table
  induction table with
  | nil => intro _ rows; simp [encodeCsvChars]
  | cons r rs ih =>
    intro h rows
    have hr := h r (List.mem_cons_self _ _)
    cases r with
    | nil => simp at hr
    | cons f fs =>
      have hfs : fs ≠ [] := by
        cases fs
        · simp at hr
        · simp
      rw [show encodeCsvChars ((f :: fs) :: rs) =
          encodeRowChars (f :: fs) ++ '\n' :: encodeCsvChars rs from rfl,
        foldl_row_lineStart f fs hfs,
        ih (fun x hx => h x (List.mem_cons_of_mem _ hx))]
      simp

lemma parseCsv_encodeCsv (table : List (List String))
    (h : ∀ r ∈ table, 2 ≤ r.length) :
    parseCsv (encodeCsv table) = table := by
  rw [parseCsv, encodeCsv]
  rw [show (⟨encodeCsvChars table⟩ : String).toList = encodeCsvChars table
    from rfl]
  rw [foldl_table table h []]
  simp

/-- The frame written by the CSV download (line 285-286): the header row
followed by one row per joined response, every cell rendered as text. -/
def csvTable (rows : List JoinedRow) : List (List String) :=
  ["id", "respondent_name", "answer", "submitted_at", "question_text",
   "qtype"] ::
    rows.map (fun r => [toString r.id, r.respondent_name, r.answer,
      r.submitted_at, r.question_text, r.qtype])

/-- C8: the CSV export round-trips. Parsing the exported CSV of any
response set reproduces the exported table exactly, and in particular the
data rows restricted to (respondent, answer, timestamp, question text,
question type) equal, in the same order, the tuples of the underlying
responses-for-survey query. -/
theorem csv_export_roundtrip (db : DB) (survey_id : Nat) :
    parseCsv (encodeCsv (csvTable (fetch_responses db survey_id))) =
      csvTable (fetch_responses db survey_id) ∧
    ((parseCsv (encodeCsv (csvTable (fetch_responses db survey_id)))).drop
        1).map (fun row => row.drop 1) =
      (fetch_responses db survey_id).map (fun r =>
        [r.respondent_name, r.answer, r.submitted_at, r.question_text,
         r.qtype]) := by
  have h : ∀ r ∈ csvTable (fetch_responses db survey_id), 2 ≤ r.length := by
    intro r hr
    rcases List.mem_cons.1 hr with rfl | hr
    · simp
    · obtain ⟨x, _, rfl⟩ := List.mem_map.1 hr
      simp
  have hrt := parseCsv_encodeCsv _ h
  refine ⟨hrt, ?_⟩
  rw [hrt]
  simp [csvTable, List.map_map]

theorem created_survey_first_in_listing_witness :
    (∀ t ∈ emptyDB.surveys, t.id < emptyDB.next_survey_id) ∧
    pyStrip "My Survey" ≠ "" ∧
    (∃ s : SurveyRec,
      (createSurvey emptyDB "My Survey" "" [] "t0").2 = some s.id ∧
      s ∈ (createSurvey emptyDB "My Survey" "" [] "t0").1.surveys ∧
      s.title = pyStrip "My Survey" ∧
      (fetch_surveys (createSurvey emptyDB "My Survey" "" [] "t0").1).head? =
        some s ∧
      List.Sorted (fun a b : SurveyRec => b.id ≤ a.id)
        (fetch_surveys (createSurvey emptyDB "My Survey" "" [] "t0").1)) :=
  ⟨by decide, by decide,
   created_survey_first_in_listing emptyDB (by decide) "My Survey" "" "t0" []
     (by decide)⟩
